import Mathlib

/-!
Shallow embedding of the content-resolution and response-assembly pipeline of
the Code-and-Clause repository.

The embedded code:
* `extract_urls`         (src/routers/helpers/helper.py, `re.findall(r'(https?://[^\s]+)', text)`)
* `handle_content`       (src/routers/helpers/helper.py, the content resolver with its
                          category dispatch, safety-retry policy and error-to-text conversion)
* `chatbot_post`         (src/routers/chatbot.py, the aggregator: file resolution, URL
                          resolution, filter, RAG fallback, merge, persistence)

External effects (HTTP fetches, local file reads, the upload channel, the two
`generate_content` call sites and the RAG `query` call) are modelled as oracle
functions collected in environment structures; an `Except.error e` value of an
oracle models the corresponding Python call raising an exception whose
`str(e)` is `e`.  Machine-level byte blobs and upload references are opaque
tokens (`Nat`), since the Python code never inspects them.
-/

namespace CodeAndClause

/-- ASCII whitespace, as recognised by the Python regex class `\s` and by
`str.strip` on ASCII text. -/
def isPySpace (c : Char) : Bool :=
  (c == ' ') || (c == '\t') || (c == '\n') || (c == '\r') || (c == '\x0b') || (c == '\x0c')

/-- Python `str.lower()`, restricted to ASCII case folding. -/
def pyLower (s : String) : String := String.mk (s.data.map Char.toLower)

/-- Does `sub` occur as a contiguous run inside `cs`?  (Python `sub in s`.) -/
def containsSub (sub : List Char) : List Char → Bool
  | [] => sub.isPrefixOf []
  | c :: rest => sub.isPrefixOf (c :: rest) || containsSub sub rest

/-- Python substring test `sub in s`. -/
def strContains (s sub : String) : Bool := containsSub sub.data s.data

/-- Python `s.startswith(pre)`. -/
def strStartsWith (s pre : String) : Bool := pre.data.isPrefixOf s.data

/-- Python truthiness of an optional string: `None` and `""` are falsy. -/
def optTruthy : Option String → Bool
  | none => false
  | some s => s != ""

/-- Python `x or default` for an optional string (`None` and `""` fall through
to the default). -/
def pyOr (o : Option String) (d : String) : String :=
  match o with
  | none => d
  | some s => if s = "" then d else s

/-- Python `str.strip()` restricted to ASCII whitespace. -/
def pyStrip (s : String) : String :=
  String.mk (((s.data.dropWhile isPySpace).reverse.dropWhile isPySpace).reverse)

/-- Opaque byte blob (the resolver never inspects PDF bytes). -/
abbrev Bytes := Nat

/-- Opaque reference returned by `client.files.upload`. -/
abbrev FileRef := Nat

/-- One part of the `contents` list handed to `generate_content`:
`types.Part.from_bytes(data, mime)`, an upload reference, or plain text. -/
inductive Part where
  | bytesPart : Bytes → String → Part
  | textPart : String → Part
  | fileRef : FileRef → Part
deriving DecidableEq, Repr

/-- A structurally valid reply of `generate_content`.  `text = none` models a
response object without a usable `text` attribute (`hasattr` fails or the
attribute is `None`); `some ""` models an empty text. -/
structure Reply where
  text : Option String
deriving DecidableEq, Repr

/-- `if hasattr(resp, 'text') and resp.text: return resp.text else: return placeholder`
(src/routers/helpers/helper.py, end of the generation step). -/
def replyText (r : Reply) : String :=
  match r.text with
  | some t => if t = "" then "I couldn\x27t generate a response for this content." else t
  | none => "I couldn\x27t generate a response for this content."

/-- Oracles for the external effects performed by `handle_content`.
`genDefault` is the first `client.models.generate_content` call site (no
`safety_settings`), `genRelaxed` the retry call site (all harm categories
`BLOCK_NONE`); `materialize` is the download-to-temporary-file step used by
the image and audio branches for remote sources. -/
structure Env where
  guessMime : String → Option String
  fetchBytes : String → Except String Bytes
  readBytes : String → Except String Bytes
  materialize : String → Except String String
  upload : String → Except String FileRef
  fetchText : String → Except String String
  readText : String → Except String String
  genDefault : List Part → Except String Reply
  genRelaxed : List Part → Except String Reply

/-- Observable outcome of one `handle_content` call: the returned string, the
`contents` payload at the moment of generation (empty if no generation call
was attempted) and how many times `generate_content` was invoked. -/
structure HCResult where
  result : String
  payload : List Part
  genCalls : Nat
deriving DecidableEq, Repr

/-- The generation step of `handle_content`: first call without
`safety_settings`; on an exception whose lowered description contains
"blocked" or "safety", exactly one retry with relaxed safety settings; any
other exception is re-raised and caught by the surrounding handler, which
converts it to `"Error generating response: ..."`. -/
def genStep (env : Env) (contents : List Part) : HCResult :=
  match env.genDefault contents with
  | .ok r => ⟨replyText r, contents, 1⟩
  | .error e =>
    if strContains (pyLower e) "blocked" || strContains (pyLower e) "safety" then
      match env.genRelaxed contents with
      | .ok r => ⟨replyText r, contents, 2⟩
      | .error e2 => ⟨"Error generating response: " ++ e2, contents, 2⟩
    else
      ⟨"Error generating response: " ++ e, contents, 1⟩

/-- Shared remote-materialisation + upload sequence of the image and audio
branches: remote sources are downloaded to a temporary file first, local
sources are uploaded directly. -/
def resolveUpload (env : Env) (source : String) : Except String FileRef :=
  if strStartsWith source "http" then
    match env.materialize source with
    | .ok p => env.upload p
    | .error e => .error e
  else env.upload source

/-- `mime_type and mime_type.startswith(pre)`. -/
def mimeStarts (m : Option String) (pre : String) : Bool :=
  match m with
  | none => false
  | some s => (s != "") && strStartsWith s pre

/-- `mime_type and (mime_type.startswith("text/") or "json" in mime_type)`. -/
def mimeTextLike (m : Option String) : Bool :=
  match m with
  | none => false
  | some s => (s != "") && (strStartsWith s "text/" || strContains s "json")

/-- Shallow embedding of `handle_content(source, mime_type, user_input)`
(src/routers/helpers/helper.py).  Every failure of an oracle is converted to
a descriptive text, exactly as the Python try/except blocks do, so the
function is total: the outer `except Exception` of the source can never fire
in this model because every inner failure is already handled. -/
def handle_content (env : Env) (source : String) (mime_hint : Option String)
    (user_input : Option String) : HCResult :=
  let mime_type : Option String :=
    if optTruthy mime_hint then mime_hint else env.guessMime source
  if mime_type = some "application/pdf" then
    match (if strStartsWith source "http" then
             match env.fetchBytes source with
             | .ok d => Except.ok d
             | .error e => Except.error ("Error fetching PDF: " ++ e)
           else
             match env.readBytes source with
             | .ok d => Except.ok d
             | .error e => Except.error ("Error reading PDF file: " ++ e)) with
    | .error msg => ⟨msg, [], 0⟩
    | .ok d =>
      genStep env [Part.bytesPart d "application/pdf",
                   Part.textPart (pyOr user_input "Summarize this document.")]
  else if mimeStarts mime_type "image/" then
    match resolveUpload env source with
    | .error e => ⟨"Error processing image: " ++ e, [], 0⟩
    | .ok r =>
      genStep env [Part.fileRef r, Part.textPart (pyOr user_input "Caption this image.")]
  else if mimeStarts mime_type "audio/" then
    match resolveUpload env source with
    | .error e => ⟨"Error processing audio: " ++ e, [], 0⟩
    | .ok r =>
      genStep env [Part.textPart (pyOr user_input "Describe this audio clip."), Part.fileRef r]
  else if mimeTextLike mime_type then
    match (if strStartsWith source "http" then env.fetchText source else env.readText source) with
    | .error e => ⟨"Error processing text content: " ++ e, [], 0⟩
    | .ok td =>
      genStep env [Part.textPart td, Part.textPart (pyOr user_input "Summarize this content.")]
  else ⟨"Unsupported content type: " ++ pyOr mime_type "unknown", [], 0⟩

theorem data_ne_nil_of_append_left (a b : String) (h : a.data ≠ []) : a ++ b ≠ "" := by
  intro hc
  have hd := congrArg String.data hc
  rw [String.data_append] at hd
  exact h (List.append_eq_nil.mp hd).1

theorem replyText_ne_empty (r : Reply) : replyText r ≠ "" := by
  unfold replyText
  match r with
  | ⟨none⟩ => simp
  | ⟨some t⟩ =>
    by_cases ht : t = "" <;> simp [ht]

theorem genStep_result_ne_empty (env : Env) (contents : List Part) :
    (genStep env contents).result ≠ "" := by
  unfold genStep
  rcases h : env.genDefault contents with e | r
  · simp only
    split
    · rcases h2 : env.genRelaxed contents with e2 | r2
      · simp only
        exact data_ne_nil_of_append_left _ _ (by decide)
      · simp only
        exact replyText_ne_empty r2
    · simp only
      exact data_ne_nil_of_append_left _ _ (by decide)
  · simp only
    exact replyText_ne_empty r

/-- C1: the content resolver is total — for every environment (hence for
unreachable URLs, unreadable local paths, failing uploads, failing or
safety-blocked generation calls, and unrecognised MIME types) and every MIME
hint and user prompt, `handle_content` returns a non-empty string; every
internal failure is converted to a descriptive error text instead of being
propagated (totality of the Lean function is the never-raises half of the
contract). -/
theorem c1_resolver_total_nonempty (env : Env) (source : String)
    (mime_hint user_input : Option String) :
    (handle_content env source mime_hint user_input).result ≠ "" := by
  unfold handle_content
  simp only
  generalize (if optTruthy mime_hint = true then mime_hint else env.guessMime source) = m
  by_cases hpdf : m = some "application/pdf"
  · rw [if_pos hpdf]
    by_cases hsrc : strStartsWith source "http" = true
    · rw [if_pos hsrc]
      rcases h : env.fetchBytes source with e | d <;> simp only [h]
      · exact data_ne_nil_of_append_left _ _ (by decide)
      · exact genStep_result_ne_empty _ _
    · rw [if_neg hsrc]
      rcases h : env.readBytes source with e | d <;> simp only [h]
      · exact data_ne_nil_of_append_left _ _ (by decide)
      · exact genStep_result_ne_empty _ _
  · rw [if_neg hpdf]
    by_cases himg : mimeStarts m "image/" = true
    · rw [if_pos himg]
      rcases h : resolveUpload env source with e | r <;> simp only [h]
      · exact data_ne_nil_of_append_left _ _ (by decide)
      · exact genStep_result_ne_empty _ _
    · rw [if_neg himg]
      by_cases haud : mimeStarts m "audio/" = true
      · rw [if_pos haud]
        rcases h : resolveUpload env source with e | r <;> simp only [h]
        · exact data_ne_nil_of_append_left _ _ (by decide)
        · exact genStep_result_ne_empty _ _
      · rw [if_neg haud]
        by_cases htxt : mimeTextLike m = true
        · rw [if_pos htxt]
          rcases h : (if strStartsWith source "http" = true then
              env.fetchText source else env.readText source) with e | t <;> simp only [h]
          · exact data_ne_nil_of_append_left _ _ (by decide)
          · exact genStep_result_ne_empty _ _
        · rw [if_neg htxt]
          exact data_ne_nil_of_append_left _ _ (by decide)

/-- An environment in which every oracle fails; used to instantiate
hypothesis-carrying theorems at concrete inputs. -/
def stubEnv : Env where
  guessMime := fun _ => none
  fetchBytes := fun _ => Except.error "unreachable"
  readBytes := fun _ => Except.error "unreadable"
  materialize := fun _ => Except.error "unreachable"
  upload := fun _ => Except.error "upload failed"
  fetchText := fun _ => Except.error "unreachable"
  readText := fun _ => Except.error "unreadable"
  genDefault := fun _ => Except.error "model error"
  genRelaxed := fun _ => Except.error "model error"

/-- C2: when the first `generate_content` call fails with an error whose
lowered description contains "blocked" or "safety", the model is invoked
exactly one more time with relaxed safety settings and the retry result is
used (a successful retry yields the retried reply text); on any other error
there is no retry and the error surfaces (re-raised to the surrounding
handler, which renders it as the error text) with the model invoked exactly
once. -/
theorem c2_safety_retry_policy (env : Env) (contents : List Part) (e : String)
    (hfail : env.genDefault contents = Except.error e) :
    ((strContains (pyLower e) "blocked" || strContains (pyLower e) "safety") = true →
       (genStep env contents).genCalls = 2 ∧
       (∀ r, env.genRelaxed contents = Except.ok r →
          (genStep env contents).result = replyText r) ∧
       (∀ t, env.genRelaxed contents = Except.ok ⟨some t⟩ → t ≠ "" →
          (genStep env contents).result = t))
    ∧ ((strContains (pyLower e) "blocked" || strContains (pyLower e) "safety") = false →
       (genStep env contents).genCalls = 1 ∧
       (genStep env contents).result = "Error generating response: " ++ e) := by
  unfold genStep
  rw [hfail]
  dsimp only
  constructor
  · intro hb
    rw [if_pos hb]
    refine ⟨?_, ?_, ?_⟩
    · rcases h : env.genRelaxed contents with e2 | r <;> simp only [h]
    · intro r hr
      rw [hr]
    · intro t ht hne
      rw [ht]
      simp [replyText, hne]
  · intro hb
    rw [if_neg (by simp [hb])]
    exact ⟨rfl, rfl⟩

def c2env : Env :=
  { stubEnv with
    genDefault := fun _ => Except.error "Response BLOCKED by safety policy"
    genRelaxed := fun _ => Except.ok ⟨some "retried text"⟩ }

theorem c2_witness :
    (genStep c2env []).genCalls = 2 ∧ (genStep c2env []).result = "retried text" := by
  have h := c2_safety_retry_policy c2env [] "Response BLOCKED by safety policy" rfl
  exact ⟨(h.1 (by decide)).1, (h.1 (by decide)).2.2 "retried text" rfl (by decide)⟩

/-- C8: when `generate_content` succeeds, the resolver returns the reply's
text if it is non-empty, and the fixed placeholder
"I couldn't generate a response for this content." when the reply is
structurally valid but carries no text (missing/`None`/empty `text`). -/
theorem c8_success_reply_handling (env : Env) (contents : List Part) (r : Reply)
    (hok : env.genDefault contents = Except.ok r) :
    (genStep env contents).result = replyText r ∧
    (genStep env contents).genCalls = 1 ∧
    (∀ t, r.text = some t → t ≠ "" → replyText r = t) ∧
    ((r.text = none ∨ r.text = some "") →
       replyText r = "I couldn\x27t generate a response for this content.") := by
  refine ⟨by unfold genStep; rw [hok], by unfold genStep; rw [hok], ?_, ?_⟩
  · intro t ht hne
    unfold replyText
    rw [ht]
    simp [hne]
  · rintro (h | h) <;> simp [replyText, h]

def c8env : Env :=
  { stubEnv with genDefault := fun _ => Except.ok ⟨some "hello"⟩ }

def c8envEmpty : Env :=
  { stubEnv with genDefault := fun _ => Except.ok ⟨none⟩ }

theorem c8_witness :
    (genStep c8env []).result = "hello" ∧
    (genStep c8envEmpty []).result = "I couldn\x27t generate a response for this content." := by
  constructor
  · rw [(c8_success_reply_handling c8env [] ⟨some "hello"⟩ rfl).1]
    rfl
  · rw [(c8_success_reply_handling c8envEmpty [] ⟨none⟩ rfl).1]
    exact (c8_success_reply_handling c8envEmpty [] ⟨none⟩ rfl).2.2.2 (Or.inl rfl)

theorem starts_ne_empty (m pre : String) (h : strStartsWith m pre = true)
    (hpre : pre ≠ "") : (m != "") = true := by
  by_cases hm : m = ""
  · subst hm
    unfold strStartsWith at h
    rcases hd : pre.data with _ | ⟨c, cs⟩
    · refine absurd ?_ hpre
      cases pre with
      | mk l =>
        have hl : l = [] := hd
        subst hl
        rfl
    · rw [hd] at h
      exact absurd h (by simp [List.isPrefixOf])
  · simp [hm]

theorem starts_head_eq (m : String) (c : Char) (cs : List Char)
    (h : strStartsWith m (String.mk (c :: cs)) = true) :
    ∃ t, m.data = c :: t := by
  unfold strStartsWith at h
  rcases hd : m.data with _ | ⟨b, bs⟩
  · rw [hd] at h
    exact absurd h (by simp [List.isPrefixOf])
  · rw [hd] at h
    simp only [List.isPrefixOf, Bool.and_eq_true, beq_iff_eq] at h
    exact ⟨bs, by rw [h.1]⟩

theorem not_image_of_audio (m : String) (h : strStartsWith m "audio/" = true) :
    strStartsWith m "image/" = false := by
  obtain ⟨t, ht⟩ := starts_head_eq m 'a' ['u', 'd', 'i', 'o', '/'] h
  unfold strStartsWith
  rw [ht]
  simp [List.isPrefixOf]

theorem ne_pdf_of_starts_image (m : String) (h : strStartsWith m "image/" = true) :
    m ≠ "application/pdf" := by
  intro he
  subst he
  exact absurd h (by decide)

theorem ne_pdf_of_starts_audio (m : String) (h : strStartsWith m "audio/" = true) :
    m ≠ "application/pdf" := by
  intro he
  subst he
  exact absurd h (by decide)

/-- C3: whenever the upload step succeeds, an `image/*` MIME hint yields the
generation payload `[uploadedRef, prompt]` while an `audio/*` MIME hint
yields the reversed ordering `[prompt, uploadedRef]`; the prompt slot is
`pyOr user_input default`, so the asymmetry holds both for a supplied
non-empty prompt and for the category default. -/
theorem c3_image_audio_payload_order (env : Env) (source m : String)
    (ui : Option String) (r : FileRef)
    (hup : resolveUpload env source = Except.ok r) :
    (strStartsWith m "image/" = true →
       (handle_content env source (some m) ui).payload
         = [Part.fileRef r, Part.textPart (pyOr ui "Caption this image.")])
    ∧ (strStartsWith m "audio/" = true →
       (handle_content env source (some m) ui).payload
         = [Part.textPart (pyOr ui "Describe this audio clip."), Part.fileRef r])
    ∧ (∀ d, pyOr none d = d ∧ pyOr (some "") d = d ∧ ∀ s, s ≠ "" → pyOr (some s) d = s) := by
  refine ⟨?_, ?_, ?_⟩
  · intro him
    have hne := starts_ne_empty m "image/" him (by decide)
    unfold handle_content
    simp only [optTruthy, hne, if_true]
    rw [if_neg (by simpa using ne_pdf_of_starts_image m him)]
    rw [if_pos (show mimeStarts (some m) "image/" = true by simp [mimeStarts, hne, him])]
    rw [hup]
    unfold genStep
    rcases h : env.genDefault [Part.fileRef r, Part.textPart (pyOr ui "Caption this image.")]
      with e | rr <;> simp only [h]
    split <;> [rcases h2 : env.genRelaxed _ with e2 | r2 <;> simp only [h2]; rfl]
  · intro hau
    have hne := starts_ne_empty m "audio/" hau (by decide)
    unfold handle_content
    simp only [optTruthy, hne, if_true]
    rw [if_neg (by simpa using ne_pdf_of_starts_audio m hau)]
    rw [if_neg (show ¬mimeStarts (some m) "image/" = true by
          simp [mimeStarts, not_image_of_audio m hau])]
    rw [if_pos (show mimeStarts (some m) "audio/" = true by simp [mimeStarts, hne, hau])]
    rw [hup]
    unfold genStep
    rcases h : env.genDefault [Part.textPart (pyOr ui "Describe this audio clip."), Part.fileRef r]
      with e | rr <;> simp only [h]
    split <;> [rcases h2 : env.genRelaxed _ with e2 | r2 <;> simp only [h2]; rfl]
  · intro d
    exact ⟨rfl, rfl, fun s hs => by simp [pyOr, hs]⟩

def c3env : Env := { stubEnv with upload := fun _ => Except.ok 7 }

theorem c3_witness :
    (handle_content c3env "img.png" (some "image/png") none).payload
      = [Part.fileRef 7, Part.textPart "Caption this image."]
    ∧ (handle_content c3env "clip.mp3" (some "audio/mpeg") (some "What is this?")).payload
      = [Part.textPart "What is this?", Part.fileRef 7] := by
  constructor
  · exact (c3_image_audio_payload_order c3env "img.png" "image/png" none 7 rfl).1 (by decide)
  · exact (c3_image_audio_payload_order c3env "clip.mp3" "audio/mpeg" (some "What is this?")
      7 rfl).2.1 (by decide)

theorem hc_unsupported (env : Env) (source : String) (ui : Option String) (m : String)
    (hm : m ≠ "")
    (hpdf : m ≠ "application/pdf")
    (himg : strStartsWith m "image/" = false)
    (haud : strStartsWith m "audio/" = false)
    (htxt : strStartsWith m "text/" = false)
    (hjson : strContains m "json" = false) :
    handle_content env source (some m) ui
      = ⟨"Unsupported content type: " ++ m, [], 0⟩ := by
  have hT : optTruthy (some m) = true := by simp [optTruthy, hm]
  have hpdf2 : ¬(some m = some "application/pdf") := by simpa using hpdf
  have himg2 : ¬(mimeStarts (some m) "image/" = true) := by simp [mimeStarts, himg]
  have haud2 : ¬(mimeStarts (some m) "audio/" = true) := by simp [mimeStarts, haud]
  have htxt2 : ¬(mimeTextLike (some m) = true) := by simp [mimeTextLike, htxt, hjson]
  unfold handle_content
  rw [if_pos hT, if_neg hpdf2, if_neg himg2, if_neg haud2, if_neg htxt2]
  simp [pyOr, hm]

def c9env : Env :=
  { stubEnv with
    readText := fun _ => Except.ok "file body"
    genDefault := fun _ => Except.ok ⟨some "summarised"⟩ }

/-- C9 counterexample: the MIME string "application/pdf+json" starts with
"application/pdf" but is NOT classified Unsupported — it matches the
text-like branch (it contains "json"), a generation call is made, and the
result is the model reply rather than the unsupported-content text. -/
theorem c9_counterexample :
    strStartsWith "application/pdf+json" "application/pdf" = true
    ∧ (handle_content c9env "doc.bin" (some "application/pdf+json") none).result = "summarised"
    ∧ (handle_content c9env "doc.bin" (some "application/pdf+json") none).genCalls = 1
    ∧ (handle_content c9env "doc.bin" (some "application/pdf+json") none).result
        ≠ "Unsupported content type: application/pdf+json" := by
  refine ⟨by decide, by decide, by decide, by decide⟩

/-- C9 (amended): a source is classified PDF only when its MIME string equals
"application/pdf" exactly; any other MIME string falls through to the later
category checks, and when it matches none of them (not `image/*`, not
`audio/*`, not `text/*`, not containing "json") the resolver returns the
unsupported-content text with no generation call — in particular
"application/pdf; charset=binary", as an HTTP Content-Type header with
parameters would be, is classified Unsupported.  (A pdf-prefixed MIME that
does match a later check, such as "application/pdf+json", is handled by that
category instead.) -/
theorem c9_exact_pdf_match (env : Env) (source : String) (ui : Option String) :
    (∀ m, m ≠ "" → m ≠ "application/pdf" →
       strStartsWith m "image/" = false → strStartsWith m "audio/" = false →
       strStartsWith m "text/" = false → strContains m "json" = false →
       (handle_content env source (some m) ui).result = "Unsupported content type: " ++ m
         ∧ (handle_content env source (some m) ui).genCalls = 0)
    ∧ ((handle_content env source (some "application/pdf; charset=binary") ui).result
         = "Unsupported content type: application/pdf; charset=binary"
       ∧ (handle_content env source (some "application/pdf; charset=binary") ui).genCalls = 0) := by
  constructor
  · intro m hm hpdf himg haud htxt hjson
    rw [hc_unsupported env source ui m hm hpdf himg haud htxt hjson]
    exact ⟨rfl, rfl⟩
  · rw [hc_unsupported env source ui "application/pdf; charset=binary"
      (by decide) (by decide) (by decide) (by decide) (by decide) (by decide)]
    exact ⟨rfl, rfl⟩

theorem c9_witness :
    (handle_content stubEnv "f.bin" (some "application/octet-stream") none).result
      = "Unsupported content type: application/octet-stream"
    ∧ (handle_content stubEnv "f.bin" (some "application/octet-stream") none).genCalls = 0 := by
  exact ⟨((c9_exact_pdf_match stubEnv "f.bin" none).1 "application/octet-stream"
      (by decide) (by decide) (by decide) (by decide) (by decide) (by decide)).1,
    ((c9_exact_pdf_match stubEnv "f.bin" none).1 "application/octet-stream"
      (by decide) (by decide) (by decide) (by decide) (by decide) (by decide)).2⟩

/-- C10: an empty-string user prompt is treated identically to an absent one
throughout the resolver — the two calls are equal outcome-for-outcome — and
the prompt slot `pyOr` maps both `none` and `some ""` to the category
default. -/
theorem c10_empty_prompt_equals_absent (env : Env) (source : String)
    (mime_hint : Option String) :
    handle_content env source mime_hint (some "")
      = handle_content env source mime_hint none
    ∧ ∀ d, pyOr (some "") d = d ∧ pyOr none d = d := by
  constructor
  · have hp : pyOr (some "") = pyOr none := funext fun d => by simp [pyOr]
    unfold handle_content
    rw [hp]
  · intro d
    exact ⟨by simp [pyOr], rfl⟩

/-! ### URL extractor: `re.findall(r'(https?://[^\s]+)', text)` -/

/-- The characters of the scheme alternative `http://`. -/
def httpChars : List Char := ['h', 't', 't', 'p', ':', '/', '/']

/-- The characters of the scheme alternative `https://`. -/
def httpsChars : List Char := ['h', 't', 't', 'p', 's', ':', '/', '/']

/-- The maximal `[^\s]+` run found right after a scheme of length `k`. -/
def urlBody (k : Nat) (cs : List Char) : List Char :=
  (cs.drop k).takeWhile (fun ch => !isPySpace ch)

/-- What remains of the text after a match whose scheme has length `k`. -/
def urlRest (k : Nat) (cs : List Char) : List Char :=
  (cs.drop k).drop (urlBody k cs).length

/-- One left-to-right scan of the regex `https?://[^\s]+` over the character
list, fuelled for structural recursion (`n` is an upper bound on the number
of remaining scan positions).  At each position the engine tries the scheme
(the greedy `s?` prefers `https://`), then requires at least one
non-whitespace character; a failed position advances by one character, a
match resumes right after the matched text, exactly like `re.findall`. -/
def urlScanAux : Nat → List Char → List String
  | 0, _ => []
  | _ + 1, [] => []
  | n + 1, c :: rest =>
    if httpsChars.isPrefixOf (c :: rest) then
      if urlBody 8 (c :: rest) = [] then urlScanAux n rest
      else String.mk (httpsChars ++ urlBody 8 (c :: rest)) :: urlScanAux n (urlRest 8 (c :: rest))
    else if httpChars.isPrefixOf (c :: rest) then
      if urlBody 7 (c :: rest) = [] then urlScanAux n rest
      else String.mk (httpChars ++ urlBody 7 (c :: rest)) :: urlScanAux n (urlRest 7 (c :: rest))
    else urlScanAux n rest

/-- The regex scan at full fuel. -/
def urlScan (cs : List Char) : List String := urlScanAux cs.length cs

/-- Shallow embedding of `extract_urls(text)`
(src/routers/helpers/helper.py): `None`/empty input yields `[]`, otherwise
the regex findall above. -/
def extract_urls : Option String → List String
  | none => []
  | some t => if t = "" then [] else urlScan t.data

theorem length_urlRest (k : Nat) (cs : List Char) :
    (urlRest k cs).length = cs.length - k - (urlBody k cs).length := by
  unfold urlRest
  simp [List.length_drop]
  omega

theorem urlScanAux_fuel : ∀ (n : Nat) (cs : List Char) (m : Nat),
    cs.length ≤ n → cs.length ≤ m → urlScanAux n cs = urlScanAux m cs := by
  intro n
  induction n with
  | zero =>
    intro cs m hn _
    have : cs = [] := List.eq_nil_of_length_eq_zero (Nat.le_zero.mp hn)
    subst this
    cases m <;> rfl
  | succ n ih =>
    intro cs m hn hm
    cases cs with
    | nil => cases m <;> rfl
    | cons c rest =>
      cases m with
      | zero => simp at hm
      | succ m' =>
        have hr : rest.length ≤ n := by simp at hn; omega
        have hr' : rest.length ≤ m' := by simp at hm; omega
        have h8 : (urlRest 8 (c :: rest)).length ≤ n := by
          rw [length_urlRest]
          simp at hn ⊢
          omega
        have h8' : (urlRest 8 (c :: rest)).length ≤ m' := by
          rw [length_urlRest]
          simp at hm ⊢
          omega
        have h7 : (urlRest 7 (c :: rest)).length ≤ n := by
          rw [length_urlRest]
          simp at hn ⊢
          omega
        have h7' : (urlRest 7 (c :: rest)).length ≤ m' := by
          rw [length_urlRest]
          simp at hm ⊢
          omega
        simp only [urlScanAux]
        split
        · split
          · exact ih rest m' hr hr'
          · rw [ih (urlRest 8 (c :: rest)) m' h8 h8']
        · split
          · split
            · exact ih rest m' hr hr'
            · rw [ih (urlRest 7 (c :: rest)) m' h7 h7']
          · exact ih rest m' hr hr'

/-- The natural (unfuelled) recursion equation of the scan. -/
theorem urlScan_cons (c : Char) (rest : List Char) :
    urlScan (c :: rest)
      = if httpsChars.isPrefixOf (c :: rest) then
          if urlBody 8 (c :: rest) = [] then urlScan rest
          else String.mk (httpsChars ++ urlBody 8 (c :: rest)) :: urlScan (urlRest 8 (c :: rest))
        else if httpChars.isPrefixOf (c :: rest) then
          if urlBody 7 (c :: rest) = [] then urlScan rest
          else String.mk (httpChars ++ urlBody 7 (c :: rest)) :: urlScan (urlRest 7 (c :: rest))
        else urlScan rest := by
  unfold urlScan
  have h8 : (urlRest 8 (c :: rest)).length ≤ rest.length := by
    rw [length_urlRest]
    simp
    omega
  have h7 : (urlRest 7 (c :: rest)).length ≤ rest.length := by
    rw [length_urlRest]
    simp
    omega
  simp only [List.length_cons, urlScanAux]
  split
  · split
    · rfl
    · rw [urlScanAux_fuel rest.length (urlRest 8 (c :: rest)) (urlRest 8 (c :: rest)).length
        h8 (Nat.le_refl _)]
  · split
    · split
      · rfl
      · rw [urlScanAux_fuel rest.length (urlRest 7 (c :: rest)) (urlRest 7 (c :: rest)).length
          h7 (Nat.le_refl _)]
    · rfl

/-- No position of `cs` starts a scheme occurrence. -/
def NoScheme (cs : List Char) : Prop :=
  ∀ n, n < cs.length →
    httpChars.isPrefixOf (cs.drop n) = false ∧ httpsChars.isPrefixOf (cs.drop n) = false

instance (cs : List Char) : Decidable (NoScheme cs) := by
  unfold NoScheme
  exact Nat.decidableBallLT _ _

theorem noScheme_nil : NoScheme [] := by
  intro n hn
  simp at hn

theorem noScheme_tail (c : Char) (cs : List Char) (h : NoScheme (c :: cs)) : NoScheme cs := by
  intro n hn
  have := h (n + 1) (by simpa using hn)
  simpa using this

theorem noScheme_head (c : Char) (cs : List Char) (h : NoScheme (c :: cs)) :
    httpChars.isPrefixOf (c :: cs) = false ∧ httpsChars.isPrefixOf (c :: cs) = false := by
  have := h 0 (by simp)
  simpa using this

/-- A scheme (which contains no space) matching across a space separator must
in fact already match inside the part before the separator. -/
theorem prefix_through_space (sch cs rest : List Char) (hsp : (' ' : Char) ∉ sch)
    (h : sch.isPrefixOf (cs ++ ' ' :: rest) = true) : sch.isPrefixOf cs = true := by
  rw [List.isPrefixOf_iff_prefix] at h ⊢
  obtain ⟨t, ht⟩ := h
  rcases List.append_eq_append_iff.mp ht with ⟨a', ha1, _⟩ | ⟨c', hc1, hc2⟩
  · exact ⟨a', ha1.symm⟩
  · cases c' with
    | nil =>
      rw [List.append_nil] at hc1
      rw [hc1]
    | cons x c'' =>
      exfalso
      rw [List.cons_append] at hc2
      have hx : ' ' = x := ((List.cons.injEq _ _ _ _ ▸ hc2) : ' ' = x ∧ _).1
      apply hsp
      rw [hc1, ← hx]
      exact List.mem_append_right _ (List.mem_cons_self _ _)

theorem urlScan_noscheme (cs : List Char) (h : NoScheme cs) : urlScan cs = [] := by
  induction cs with
  | nil => rfl
  | cons c rest ih =>
    rw [urlScan_cons]
    obtain ⟨h7, h8⟩ := noScheme_head c rest h
    rw [if_neg (by simp [h8]), if_neg (by simp [h7])]
    exact ih (noScheme_tail c rest h)

/-- Scanning a scheme-free chunk followed by a space just skips to the rest. -/
theorem urlScan_skip (cs rest : List Char) (h : NoScheme cs) :
    urlScan (cs ++ ' ' :: rest) = urlScan rest := by
  induction cs with
  | nil =>
    rw [List.nil_append, urlScan_cons]
    rw [if_neg (by simp [httpsChars, List.isPrefixOf]), if_neg (by simp [httpChars, List.isPrefixOf])]
  | cons c cs ih =>
    rw [List.cons_append, urlScan_cons]
    have h8 : ¬ httpsChars.isPrefixOf (c :: (cs ++ ' ' :: rest)) = true := by
      intro hpre
      have := prefix_through_space httpsChars (c :: cs) rest (by decide)
        (by rw [List.cons_append]; exact hpre)
      rw [(noScheme_head c cs h).2] at this
      cases this
    have h7 : ¬ httpChars.isPrefixOf (c :: (cs ++ ' ' :: rest)) = true := by
      intro hpre
      have := prefix_through_space httpChars (c :: cs) rest (by decide)
        (by rw [List.cons_append]; exact hpre)
      rw [(noScheme_head c cs h).1] at this
      cases this
    rw [if_neg h8, if_neg h7]
    exact ih (noScheme_tail c cs h)

theorem isPrefixOf_self_append (l t : List Char) : l.isPrefixOf (l ++ t) = true := by
  induction l with
  | nil => simp [List.isPrefixOf]
  | cons a l ih => simp [List.isPrefixOf, ih]

theorem takeWhile_nonspace_body (body tail : List Char)
    (hbs : ∀ ch ∈ body, isPySpace ch = false) :
    (body ++ tail).takeWhile (fun ch => !isPySpace ch)
      = body ++ tail.takeWhile (fun ch => !isPySpace ch) := by
  exact List.takeWhile_append_of_pos (by intro a ha; simp [hbs a ha])

theorem mk_data (w : String) : String.mk w.data = w := by
  cases w
  rfl

theorem urlScan_https_word (body rest : List Char) (hb : body ≠ [])
    (hbs : ∀ ch ∈ body, isPySpace ch = false) :
    urlScan (httpsChars ++ (body ++ ' ' :: rest))
      = String.mk (httpsChars ++ body) :: urlScan rest := by
  have hrepr : httpsChars ++ (body ++ ' ' :: rest)
      = 'h' :: (['t', 't', 'p', 's', ':', '/', '/'] ++ (body ++ ' ' :: rest)) := by
    simp [httpsChars]
  have hc1 : httpsChars.isPrefixOf
      ('h' :: (['t', 't', 'p', 's', ':', '/', '/'] ++ (body ++ ' ' :: rest))) = true := by
    exact isPrefixOf_self_append httpsChars (body ++ ' ' :: rest)
  have hdrop : ('h' :: (['t', 't', 'p', 's', ':', '/', '/'] ++ (body ++ ' ' :: rest))).drop 8
      = body ++ ' ' :: rest := rfl
  have hbody : urlBody 8 ('h' :: (['t', 't', 'p', 's', ':', '/', '/'] ++ (body ++ ' ' :: rest)))
      = body := by
    unfold urlBody
    rw [hdrop, takeWhile_nonspace_body body (' ' :: rest) hbs,
      List.takeWhile_cons_of_neg (by simp [isPySpace])]
    simp
  have hrest : urlRest 8 ('h' :: (['t', 't', 'p', 's', ':', '/', '/'] ++ (body ++ ' ' :: rest)))
      = ' ' :: rest := by
    unfold urlRest
    rw [hdrop, hbody, List.drop_left]
  rw [hrepr, urlScan_cons, if_pos hc1, hbody, if_neg hb, hrest]
  have hskip : urlScan (' ' :: rest) = urlScan rest := urlScan_skip [] rest noScheme_nil
  rw [hskip]

theorem urlScan_https_word_end (body : List Char) (hb : body ≠ [])
    (hbs : ∀ ch ∈ body, isPySpace ch = false) :
    urlScan (httpsChars ++ body) = [String.mk (httpsChars ++ body)] := by
  have hrepr : httpsChars ++ body = 'h' :: (['t', 't', 'p', 's', ':', '/', '/'] ++ body) := by
    simp [httpsChars]
  have hc1 : httpsChars.isPrefixOf ('h' :: (['t', 't', 'p', 's', ':', '/', '/'] ++ body)) = true := by
    exact isPrefixOf_self_append httpsChars body
  have hdrop : ('h' :: (['t', 't', 'p', 's', ':', '/', '/'] ++ body)).drop 8 = body := rfl
  have hbody : urlBody 8 ('h' :: (['t', 't', 'p', 's', ':', '/', '/'] ++ body)) = body := by
    unfold urlBody
    rw [hdrop]
    have := takeWhile_nonspace_body body [] hbs
    simpa using this
  have hrest : urlRest 8 ('h' :: (['t', 't', 'p', 's', ':', '/', '/'] ++ body)) = [] := by
    unfold urlRest
    rw [hdrop, hbody, List.drop_length]
  rw [hrepr, urlScan_cons, if_pos hc1, hbody, if_neg hb, hrest]
  rfl

theorem urlScan_http_word (body rest : List Char) (hb : body ≠ [])
    (hbs : ∀ ch ∈ body, isPySpace ch = false) :
    urlScan (httpChars ++ (body ++ ' ' :: rest))
      = String.mk (httpChars ++ body) :: urlScan rest := by
  have hrepr : httpChars ++ (body ++ ' ' :: rest)
      = 'h' :: (['t', 't', 'p', ':', '/', '/'] ++ (body ++ ' ' :: rest)) := by
    simp [httpChars]
  have hc8 : ¬ httpsChars.isPrefixOf
      ('h' :: (['t', 't', 'p', ':', '/', '/'] ++ (body ++ ' ' :: rest))) = true := by
    simp [httpsChars, List.isPrefixOf]
  have hc1 : httpChars.isPrefixOf
      ('h' :: (['t', 't', 'p', ':', '/', '/'] ++ (body ++ ' ' :: rest))) = true := by
    exact isPrefixOf_self_append httpChars (body ++ ' ' :: rest)
  have hdrop : ('h' :: (['t', 't', 'p', ':', '/', '/'] ++ (body ++ ' ' :: rest))).drop 7
      = body ++ ' ' :: rest := rfl
  have hbody : urlBody 7 ('h' :: (['t', 't', 'p', ':', '/', '/'] ++ (body ++ ' ' :: rest)))
      = body := by
    unfold urlBody
    rw [hdrop, takeWhile_nonspace_body body (' ' :: rest) hbs,
      List.takeWhile_cons_of_neg (by simp [isPySpace])]
    simp
  have hrest : urlRest 7 ('h' :: (['t', 't', 'p', ':', '/', '/'] ++ (body ++ ' ' :: rest)))
      = ' ' :: rest := by
    unfold urlRest
    rw [hdrop, hbody, List.drop_left]
  rw [hrepr, urlScan_cons, if_neg hc8, if_pos hc1, hbody, if_neg hb, hrest]
  have hskip : urlScan (' ' :: rest) = urlScan rest := urlScan_skip [] rest noScheme_nil
  rw [hskip]

theorem urlScan_http_word_end (body : List Char) (hb : body ≠ [])
    (hbs : ∀ ch ∈ body, isPySpace ch = false) :
    urlScan (httpChars ++ body) = [String.mk (httpChars ++ body)] := by
  have hrepr : httpChars ++ body = 'h' :: (['t', 't', 'p', ':', '/', '/'] ++ body) := by
    simp [httpChars]
  have hc8 : ¬ httpsChars.isPrefixOf ('h' :: (['t', 't', 'p', ':', '/', '/'] ++ body)) = true := by
    simp [httpsChars, List.isPrefixOf]
  have hc1 : httpChars.isPrefixOf ('h' :: (['t', 't', 'p', ':', '/', '/'] ++ body)) = true := by
    exact isPrefixOf_self_append httpChars body
  have hdrop : ('h' :: (['t', 't', 'p', ':', '/', '/'] ++ body)).drop 7 = body := rfl
  have hbody : urlBody 7 ('h' :: (['t', 't', 'p', ':', '/', '/'] ++ body)) = body := by
    unfold urlBody
    rw [hdrop]
    have := takeWhile_nonspace_body body [] hbs
    simpa using this
  have hrest : urlRest 7 ('h' :: (['t', 't', 'p', ':', '/', '/'] ++ body)) = [] := by
    unfold urlRest
    rw [hdrop, hbody, List.drop_length]
  rw [hrepr, urlScan_cons, if_neg hc8, if_pos hc1, hbody, if_neg hb, hrest]
  rfl

/-- A word is a well-formed URL: it starts with a scheme and has at least one
further (non-whitespace) character, so the regex matches the entire word. -/
def isUrlWord (w : String) : Bool :=
  (httpsChars.isPrefixOf w.data && decide (8 < w.data.length))
  || (httpChars.isPrefixOf w.data && decide (7 < w.data.length))

/-- The word carries no whitespace character. -/
def SpaceFree (w : String) : Prop := ∀ ch ∈ w.data, isPySpace ch = false

instance (w : String) : Decidable (SpaceFree w) := by
  unfold SpaceFree
  infer_instance

/-- A word the extractor theorem speaks about: either a whitespace-free
well-formed URL, or a word containing no scheme occurrence at all. -/
def WordShaped (w : String) : Prop :=
  (isUrlWord w = true ∧ SpaceFree w) ∨ NoScheme w.data

instance (w : String) : Decidable (WordShaped w) := by
  unfold WordShaped
  infer_instance

theorem plain_not_urlWord (w : String) (h : NoScheme w.data) : isUrlWord w = false := by
  unfold isUrlWord
  rcases hd : w.data with _ | ⟨c, cs⟩
  · simp [httpChars, httpsChars, List.isPrefixOf]
  · have h0 := h 0 (by rw [hd]; simp)
    rw [List.drop_zero, hd] at h0
    rw [h0.1, h0.2]
    rfl

theorem goodWord_decomp (w : String) (hg : isUrlWord w = true) :
    (∃ body, w.data = httpsChars ++ body ∧ body ≠ []) ∨
    (∃ body, w.data = httpChars ++ body ∧ body ≠ []) := by
  unfold isUrlWord at hg
  rw [Bool.or_eq_true, Bool.and_eq_true, Bool.and_eq_true] at hg
  rcases hg with ⟨hpre, hlen⟩ | ⟨hpre, hlen⟩
  · left
    obtain ⟨t, ht⟩ := List.isPrefixOf_iff_prefix.mp hpre
    refine ⟨t, ht.symm, ?_⟩
    intro hnil
    have hlen2 := of_decide_eq_true hlen
    subst hnil
    rw [List.append_nil] at ht
    rw [← ht] at hlen2
    simp [httpsChars] at hlen2
  · right
    obtain ⟨t, ht⟩ := List.isPrefixOf_iff_prefix.mp hpre
    refine ⟨t, ht.symm, ?_⟩
    intro hnil
    have hlen2 := of_decide_eq_true hlen
    subst hnil
    rw [List.append_nil] at ht
    rw [← ht] at hlen2
    simp [httpChars] at hlen2

theorem urlScan_word_append (w : String) (rest : List Char) (hw : WordShaped w) :
    urlScan (w.data ++ ' ' :: rest) = (if isUrlWord w then [w] else []) ++ urlScan rest := by
  rcases hw with ⟨hg, hsf⟩ | hplain
  · rw [if_pos hg]
    rcases goodWord_decomp w hg with ⟨body, hdec, hb⟩ | ⟨body, hdec, hb⟩
    · have hbs : ∀ ch ∈ body, isPySpace ch = false := fun ch hch =>
        hsf ch (by rw [hdec]; exact List.mem_append_right _ hch)
      rw [hdec, List.append_assoc, urlScan_https_word body rest hb hbs, ← hdec, mk_data w]
      rfl
    · have hbs : ∀ ch ∈ body, isPySpace ch = false := fun ch hch =>
        hsf ch (by rw [hdec]; exact List.mem_append_right _ hch)
      rw [hdec, List.append_assoc, urlScan_http_word body rest hb hbs, ← hdec, mk_data w]
      rfl
  · rw [if_neg (by simp [plain_not_urlWord w hplain]), urlScan_skip w.data rest hplain]
    rfl

theorem urlScan_word_end (w : String) (hw : WordShaped w) :
    urlScan w.data = if isUrlWord w then [w] else [] := by
  rcases hw with ⟨hg, hsf⟩ | hplain
  · rw [if_pos hg]
    rcases goodWord_decomp w hg with ⟨body, hdec, hb⟩ | ⟨body, hdec, hb⟩
    · have hbs : ∀ ch ∈ body, isPySpace ch = false := fun ch hch =>
        hsf ch (by rw [hdec]; exact List.mem_append_right _ hch)
      rw [hdec, urlScan_https_word_end body hb hbs, ← hdec, mk_data w]
    · have hbs : ∀ ch ∈ body, isPySpace ch = false := fun ch hch =>
        hsf ch (by rw [hdec]; exact List.mem_append_right _ hch)
      rw [hdec, urlScan_http_word_end body hb hbs, ← hdec, mk_data w]
  · rw [if_neg (by simp [plain_not_urlWord w hplain])]
    exact urlScan_noscheme w.data hplain

/-- Input texts for the extractor theorem: words joined by single spaces. -/
def joinWords : List String → String
  | [] => ""
  | [w] => w
  | w :: ws => w ++ " " ++ joinWords ws

theorem extract_urls_some (t : String) : extract_urls (some t) = urlScan t.data := by
  show (if t = "" then [] else urlScan t.data) = urlScan t.data
  by_cases ht : t = ""
  · subst ht
    rw [if_pos rfl]
    rfl
  · rw [if_neg ht]

theorem urlScan_join (ws : List String) (h : ∀ w ∈ ws, WordShaped w) :
    urlScan (joinWords ws).data = ws.filter isUrlWord := by
  induction ws with
  | nil => rfl
  | cons w ws ih =>
    cases ws with
    | nil =>
      have := urlScan_word_end w (h w (by simp))
      rw [joinWords, this, List.filter_cons]
      cases hu : isUrlWord w <;> simp [hu]
    | cons w2 ws2 =>
      have hsp : (" " : String).data = [' '] := rfl
      have hdata : (w ++ " " ++ joinWords (w2 :: ws2)).data
          = w.data ++ ' ' :: (joinWords (w2 :: ws2)).data := by
        rw [String.data_append, String.data_append, List.append_assoc, hsp]
        rfl
      rw [joinWords, hdata, urlScan_word_append w _ (h w (by simp)),
        ih (fun v hv => h v (by simp [hv]))]
      cases hu : isUrlWord w <;> simp [List.filter_cons, hu]
      simp

/-- C7: the URL extractor is a pure total function; `None` and the empty text
yield the empty list, and on a text made of space-separated words — each
either a well-formed `http(s)://` URL without internal whitespace or a word
containing no scheme occurrence — it returns exactly the URL words (each the
maximal whitespace-free run starting at its scheme, i.e. the entire word),
in order of appearance, duplicates kept, with no de-duplication. -/
theorem c7_extract_urls_spec :
    extract_urls none = [] ∧ extract_urls (some "") = [] ∧
    ∀ ws : List String, (∀ w ∈ ws, WordShaped w) →
      extract_urls (some (joinWords ws)) = ws.filter isUrlWord := by
  refine ⟨rfl, rfl, ?_⟩
  intro ws h
  rw [extract_urls_some, urlScan_join ws h]

theorem c7_witness :
    extract_urls (some (joinWords ["see", "http://a", "x", "https://b/c", "http://a"]))
      = ["http://a", "https://b/c", "http://a"] := by
  rw [c7_extract_urls_spec.2.2 ["see", "http://a", "x", "https://b/c", "http://a"]
    (by intro w hw; fin_cases hw <;> decide)]
  rfl

/-! ### Response aggregator: `chatbot_post` (src/routers/chatbot.py) -/

/-- The uploaded file as the endpoint sees it: `file.filename` and
`file.content_type`. -/
structure FileInfo where
  filename : String
  content_type : Option String
deriving DecidableEq, Repr

/-- The form fields of one `POST /chatbot/` request. -/
structure ChatReq where
  user_input : Option String
  file : Option FileInfo
deriving DecidableEq, Repr

/-- Oracles for the aggregator's external effects.  `fileResolve mime prompt`
is the `await handle_content(tmp.name, mime, prompt)` call on the uploaded
file's temporary copy; `headMime url` is the `httpx.head` probe combined
with `headers.get("Content-Type", mimetypes.guess_type(url)[0])`;
`urlResolve url mime ui` is `await handle_content(url, mime, user_input)`;
`query text` is `query_engine.query(text)`, whose `Except.ok` value is
`none` for a falsy result object and `some s` for a truthy object whose
`getattr(out, "response", "")` is `s`.  An `Except.error e` models the call
raising an exception with description `e`. -/
structure AggEnv where
  guessMime : String → Option String
  fileResolve : Option String → String → Except String String
  headMime : String → Except String (Option String)
  urlResolve : String → Option String → Option String → Except String String
  query : String → Except String (Option String)

/-- One persisted `ChatbotInteraction` row (the fields the claims are
about). -/
structure ChatbotInteraction where
  userInput : String
  response : String
deriving DecidableEq, Repr

/-- Observable outcome of a successful `chatbot_post` call: the response
text, the rows inserted into the store, and how many times
`query_engine.query` was invoked. -/
structure ChatOutcome where
  response : String
  records : List ChatbotInteraction
  queryCalls : Nat
deriving DecidableEq, Repr

/-- `mime = file.content_type or mimetypes.guess_type(file.filename)[0]`. -/
def fileMime (env : AggEnv) (f : FileInfo) : Option String :=
  match f.content_type with
  | some c => if c = "" then env.guessMime f.filename else some c
  | none => env.guessMime f.filename

/-- The body of the per-URL loop: HEAD probe, resolution, and the three ways
a text is collected (result, empty-result note, exception text). -/
def urlStep (env : AggEnv) (uiOpt : Option String) (url : String) : String :=
  match (match env.headMime url with
         | .ok mime => env.urlResolve url mime uiOpt
         | .error e => Except.error e) with
  | .ok r => if r = "" then "Couldn\x27t process URL: " ++ url else r
  | .error e => "Error processing URL " ++ url ++ ": " ++ e

/-- Steps 1–2 of the handler: the file contribution (if a file was uploaded)
followed by one contribution per URL extracted from the text, in appearance
order. -/
def collectTexts (env : AggEnv) (req : ChatReq) : List String :=
  let fileTexts : List String :=
    match req.file with
    | none => []
    | some f =>
      match env.fileResolve (fileMime env f) (pyOr req.user_input "Analyze this file.") with
      | .ok r => if r = "" then ["I couldn\x27t process this file type properly."] else [r]
      | .error e => ["Error processing file: " ++ e]
  let urlTexts : List String :=
    if optTruthy req.user_input then
      (extract_urls req.user_input).map (urlStep env req.user_input)
    else []
  fileTexts ++ urlTexts

/-- The filter condition of
`[r.strip() for r in response_texts if r and r.strip() and "Empty Response" not in r]`. -/
def keepText (r : String) : Bool :=
  (r != "") && (pyStrip r != "") && !(strContains r "Empty Response")

/-- The full filtering list comprehension (filter, then strip each
survivor). -/
def filterTexts (l : List String) : List String :=
  (l.filter keepText).map pyStrip

/-- The persona preamble prepended to the fallback query
(src/routers/chatbot.py, `prompt_header`). -/
def prompt_header : String :=
  "\n  you are Code&Clause, designed to assist with the clearance of Information Technology projects by public institutions.\n"
  ++ "  You can also provide efficient, enjoyable, and secure service by processing applications, sending notices, verifying identity, resolving disputes, managing risk, and improving NITDA services.\n"
  ++ "  You can also help detect, prevent, or remediate violations of laws, regulations, standards, guidelines, and frameworks, as well as track information breaches and manage information technology and physical infrastructure.\n"

/-- Step 3, the text-only RAG fallback: build
`prompt_header + "\n" + user_input`, query, and turn the outcome into the
single collected text (stripped answer, fixed placeholder on an
empty/falsy result, or the error text on an exception). -/
def fallbackStep (env : AggEnv) (ui : String) : String :=
  match env.query (prompt_header ++ "\n" ++ ui) with
  | .ok (some resp) =>
    if pyStrip resp != "" then pyStrip resp
    else "I couldn\x27t generate a good response for your query."
  | .ok none => "I couldn\x27t generate a good response for your query."
  | .error e => "Error generating response: " ++ e

/-- Shallow embedding of the `POST /chatbot/` handler
(src/routers/chatbot.py).  `Except.error 400` is the early rejection when
neither text nor file is present; the success value records the final
response, the single inserted row, and the fallback-query invocation
count. -/
def chatbot_post (env : AggEnv) (req : ChatReq) : Except Nat ChatOutcome :=
  if !optTruthy req.user_input && req.file.isNone then Except.error 400
  else
    let texts0 := filterTexts (collectTexts env req)
    let fb : List String × Nat :=
      if texts0.isEmpty && optTruthy req.user_input then
        (texts0 ++ [fallbackStep env (req.user_input.getD "")], 1)
      else (texts0, 0)
    let joined := String.intercalate "\n\n" fb.1
    let final_resp :=
      if joined = "" then "I\x27m having trouble generating a response right now." else joined
    let stored := pyOr req.user_input
      (match req.file with
       | some f => f.filename
       | none => "<empty>")
    Except.ok ⟨final_resp, [⟨stored, final_resp⟩], fb.2⟩

theorem intercalate_three (s a b c : String) :
    String.intercalate s [a, b, c] = a ++ s ++ b ++ s ++ c := rfl

theorem append_ne_empty_of_right (a b : String) (h : b ≠ "") : a ++ b ≠ "" := by
  intro hc
  have hd := congrArg String.data hc
  rw [String.data_append] at hd
  apply h
  have hb : b.data = [] := (List.append_eq_nil.mp hd).2
  cases b with
  | mk l =>
    have hl : l = [] := hb
    subst hl
    rfl

theorem keepText_parts (r : String) (h : keepText r = true) :
    r ≠ "" ∧ pyStrip r ≠ "" ∧ strContains r "Empty Response" = false := by
  unfold keepText at h
  rw [Bool.and_eq_true, Bool.and_eq_true] at h
  refine ⟨?_, ?_, ?_⟩
  · exact bne_iff_ne.mp h.1.1
  · exact bne_iff_ne.mp h.1.2
  · simpa using h.2

/-- C4 (amended): with a file contribution `F` and URL contributions
`U1`, `U2` (in URL-appearance order), all surviving the filter and the
fallback untriggered, the final response is
`strip F ++ "\n\n" ++ strip U1 ++ "\n\n" ++ strip U2` — the merge joins the
surviving texts with a blank-line separator, file result first, then the
URL results in appearance order, each stripped of surrounding whitespace by
the filter step. -/
theorem c4_merge_order (env : AggEnv) (req : ChatReq) (f : FileInfo) (ui : String)
    (F U1 U2 u1 u2 : String)
    (hfile : req.file = some f)
    (hui : req.user_input = some ui)
    (huine : ui ≠ "")
    (hurls : extract_urls (some ui) = [u1, u2])
    (hF : env.fileResolve (fileMime env f) (pyOr (some ui) "Analyze this file.") = Except.ok F)
    (hU1 : urlStep env (some ui) u1 = U1)
    (hU2 : urlStep env (some ui) u2 = U2)
    (hkF : keepText F = true) (hkU1 : keepText U1 = true) (hkU2 : keepText U2 = true) :
    chatbot_post env req
      = Except.ok ⟨pyStrip F ++ "\n\n" ++ pyStrip U1 ++ "\n\n" ++ pyStrip U2,
          [⟨ui, pyStrip F ++ "\n\n" ++ pyStrip U1 ++ "\n\n" ++ pyStrip U2⟩], 0⟩ := by
  obtain ⟨hFne, hFs, -⟩ := keepText_parts F hkF
  obtain ⟨-, hU2s, -⟩ := keepText_parts U2 hkU2
  have hcollect : collectTexts env req = [F, U1, U2] := by
    unfold collectTexts
    rw [hfile, hui]
    dsimp only
    rw [hF]
    dsimp only
    rw [if_neg hFne]
    rw [show optTruthy (some ui) = true from by simp [optTruthy, huine], if_pos rfl]
    rw [hurls]
    simp only [List.map]
    rw [hU1, hU2]
    rfl
  have hfilter : filterTexts (collectTexts env req)
      = [pyStrip F, pyStrip U1, pyStrip U2] := by
    rw [hcollect]
    unfold filterTexts
    simp [List.filter_cons, hkF, hkU1, hkU2]
  have hvalid : (!optTruthy req.user_input && req.file.isNone) = false := by
    rw [hfile]
    simp
  unfold chatbot_post
  rw [hvalid]
  simp only [Bool.false_eq_true, if_false]
  rw [hfilter, hui]
  simp only [List.isEmpty_cons, Bool.false_and, Bool.false_eq_true, if_false]
  have hjoin : String.intercalate "\n\n" [pyStrip F, pyStrip U1, pyStrip U2]
      = pyStrip F ++ "\n\n" ++ pyStrip U1 ++ "\n\n" ++ pyStrip U2 := intercalate_three _ _ _ _
  rw [hjoin]
  rw [if_neg (append_ne_empty_of_right _ _ hU2s)]
  rw [hfile]
  simp [pyOr, huine]

def c4cexEnv : AggEnv where
  guessMime := fun _ => none
  fileResolve := fun _ _ => Except.ok " a "
  headMime := fun _ => Except.ok none
  urlResolve := fun url _ _ => Except.ok (if url = "http://a" then "u1" else "u2")
  query := fun _ => Except.error "no query expected"

def c4cexReq : ChatReq :=
  ⟨some "see http://a http://b", some ⟨"f.txt", some "text/plain"⟩⟩

/-- C4 counterexample: the file resolution yields `" a "` (whitespace
padding), the two URL resolutions yield `"u1"` and `"u2"`, all three survive
the filter and no fallback triggers, yet the final response is
`"a\n\nu1\n\nu2"` — the filter step strips each surviving text, so the merge
is NOT literally `F ++ "\n\n" ++ U1 ++ "\n\n" ++ U2` for `F = " a "`. -/
theorem c4_counterexample :
    (chatbot_post c4cexEnv c4cexReq).map ChatOutcome.response
      = Except.ok "a\n\nu1\n\nu2"
    ∧ "a\n\nu1\n\nu2" ≠ " a " ++ "\n\n" ++ "u1" ++ "\n\n" ++ "u2" := by
  exact ⟨rfl, by decide⟩

def c4witEnv : AggEnv where
  guessMime := fun _ => none
  fileResolve := fun _ _ => Except.ok "file summary"
  headMime := fun _ => Except.ok none
  urlResolve := fun url _ _ => Except.ok (if url = "http://a" then "url one" else "url two")
  query := fun _ => Except.error "no query expected"

theorem c4_witness :
    chatbot_post c4witEnv c4cexReq
      = Except.ok ⟨"file summary\n\nurl one\n\nurl two",
          [⟨"see http://a http://b", "file summary\n\nurl one\n\nurl two"⟩], 0⟩ := by
  have h := c4_merge_order c4witEnv c4cexReq ⟨"f.txt", some "text/plain"⟩
    "see http://a http://b" "file summary" "url one" "url two" "http://a" "http://b"
    rfl rfl (by decide) (by decide) rfl rfl rfl (by decide) (by decide) (by decide)
  rw [h]
  rfl

theorem fallbackStep_ne_empty (env : AggEnv) (ui : String) : fallbackStep env ui ≠ "" := by
  unfold fallbackStep
  rcases h : env.query (prompt_header ++ "\n" ++ ui) with e | o
  · exact data_ne_nil_of_append_left _ _ (by decide)
  · cases o with
    | none => decide
    | some resp =>
      dsimp only
      by_cases hs : (pyStrip resp != "") = true
      · rw [if_pos hs]
        exact bne_iff_ne.mp hs
      · rw [if_neg hs]
        decide

/-- C5 (amended): when the filtered collection is empty and user text is
truthy, the retrieval query is invoked exactly once on the persona preamble
prepended to the user text and its outcome is the sole final text — the
stripped answer when the query returns a non-blank response, the fixed
apology placeholder when the result is falsy or blank, but on a *failing*
(raising) query the sole final text is the error text
`"Error generating response: " ++ e`, not a fixed placeholder; when at least
one text survives the filter or user text is not truthy, the query is not
invoked at all. -/
theorem c5_fallback_policy (env : AggEnv) (req : ChatReq) :
    (filterTexts (collectTexts env req) = [] → optTruthy req.user_input = true →
       chatbot_post env req
         = Except.ok ⟨fallbackStep env (req.user_input.getD ""),
             [⟨pyOr req.user_input
                 (match req.file with
                  | some f => f.filename
                  | none => "<empty>"), fallbackStep env (req.user_input.getD "")⟩], 1⟩
       ∧ (∀ e, env.query (prompt_header ++ "\n" ++ req.user_input.getD "") = Except.error e →
            fallbackStep env (req.user_input.getD "") = "Error generating response: " ++ e)
       ∧ (env.query (prompt_header ++ "\n" ++ req.user_input.getD "") = Except.ok none →
            fallbackStep env (req.user_input.getD "")
              = "I couldn\x27t generate a good response for your query.")
       ∧ (∀ resp, env.query (prompt_header ++ "\n" ++ req.user_input.getD "")
              = Except.ok (some resp) →
            (pyStrip resp = "" →
               fallbackStep env (req.user_input.getD "")
                 = "I couldn\x27t generate a good response for your query.")
            ∧ (pyStrip resp ≠ "" →
               fallbackStep env (req.user_input.getD "") = pyStrip resp)))
    ∧ (∀ out, chatbot_post env req = Except.ok out →
         (filterTexts (collectTexts env req) ≠ [] ∨ optTruthy req.user_input = false) →
         out.queryCalls = 0) := by
  constructor
  · intro h0 hui
    refine ⟨?_, ?_, ?_, ?_⟩
    · have hvalid : (!optTruthy req.user_input && req.file.isNone) = false := by
        rw [hui]
        rfl
      unfold chatbot_post
      rw [hvalid]
      simp only [Bool.false_eq_true, if_false]
      rw [h0, hui]
      simp only [List.isEmpty_nil, Bool.and_self, if_true, List.nil_append]
      have hone : String.intercalate "\n\n" [fallbackStep env (req.user_input.getD "")]
          = fallbackStep env (req.user_input.getD "") := rfl
      rw [hone, if_neg (fallbackStep_ne_empty env _)]
    · intro e he
      unfold fallbackStep
      rw [he]
    · intro hq
      unfold fallbackStep
      rw [hq]
    · intro resp hq
      constructor
      · intro hs
        unfold fallbackStep
        rw [hq]
        dsimp only
        rw [if_neg (by simp [hs])]
      · intro hs
        unfold fallbackStep
        rw [hq]
        dsimp only
        rw [if_pos (bne_iff_ne.mpr hs)]
  · intro out hok hcond
    unfold chatbot_post at hok
    by_cases hv : (!optTruthy req.user_input && req.file.isNone) = true
    · rw [if_pos hv] at hok
      cases hok
    · rw [if_neg hv] at hok
      have hcnd : ((filterTexts (collectTexts env req)).isEmpty
          && optTruthy req.user_input) = false := by
        rcases hcond with hne | hfalse
        · have hie : (filterTexts (collectTexts env req)).isEmpty = false := by
            rcases hl : filterTexts (collectTexts env req) with _ | ⟨a, l⟩
            · exact absurd hl hne
            · rfl
          rw [hie, Bool.false_and]
        · rw [hfalse, Bool.and_false]
      have hout := Except.ok.inj hok
      rw [← hout]
      dsimp only
      rw [hcnd]
      rfl

def c5cexEnv : AggEnv where
  guessMime := fun _ => none
  fileResolve := fun _ _ => Except.error "no file expected"
  headMime := fun _ => Except.ok none
  urlResolve := fun _ _ _ => Except.error "no url expected"
  query := fun _ => Except.error "boom"

def c5cexReq : ChatReq := ⟨some "hi", none⟩

/-- C5 counterexample: with no file, user text `"hi"` (no URLs) and a
*failing* retrieval query raising `"boom"`, the fallback path is taken, but
the sole final text is the error text `"Error generating response: boom"` —
not a fixed apology placeholder as the claim states for a failing query
result. -/
theorem c5_counterexample :
    (chatbot_post c5cexEnv c5cexReq).map ChatOutcome.response
      = Except.ok "Error generating response: boom"
    ∧ (chatbot_post c5cexEnv c5cexReq).map ChatOutcome.queryCalls = Except.ok 1
    ∧ "Error generating response: boom"
        ≠ "I couldn\x27t generate a good response for your query."
    ∧ "Error generating response: boom"
        ≠ "I\x27m having trouble generating a response right now." := by
  exact ⟨rfl, rfl, by decide, by decide⟩

def c5witEnv : AggEnv where
  guessMime := fun _ => none
  fileResolve := fun _ _ => Except.error "no file expected"
  headMime := fun _ => Except.ok none
  urlResolve := fun _ _ _ => Except.error "no url expected"
  query := fun _ => Except.ok (some "  real answer  ")

theorem c5_witness :
    chatbot_post c5witEnv c5cexReq
      = Except.ok ⟨"real answer", [⟨"hi", "real answer"⟩], 1⟩ := by
  have h := (c5_fallback_policy c5witEnv c5cexReq).1 rfl rfl
  rw [h.1]
  have h2 := (h.2.2.2 "  real answer  " rfl).2 (by decide)
  rw [h2]
  rfl

/-- C6: every chat request that returns a success outcome persists exactly
one `ChatbotInteraction` row, whatever the number of sub-resolutions, and
its `userInput` is the literal user text when that text is non-empty, the
uploaded file's name when the text is absent or empty, and the fixed marker
`"<empty>"` otherwise (the stored value is `pyOr` of the user text over the
filename-or-marker default, exactly the source's
`user_input or (file.filename if file else "<empty>")`). -/
theorem c6_single_record (env : AggEnv) (req : ChatReq) (out : ChatOutcome)
    (hok : chatbot_post env req = Except.ok out) :
    out.records.length = 1
    ∧ out.records = [⟨pyOr req.user_input
        (match req.file with
         | some f => f.filename
         | none => "<empty>"), out.response⟩]
    ∧ (∀ s, req.user_input = some s → s ≠ "" → ∃ r, out.records = [r] ∧ r.userInput = s)
    ∧ (∀ f, req.file = some f → (req.user_input = none ∨ req.user_input = some "") →
        ∃ r, out.records = [r] ∧ r.userInput = f.filename) := by
  unfold chatbot_post at hok
  by_cases hv : (!optTruthy req.user_input && req.file.isNone) = true
  · rw [if_pos hv] at hok
    cases hok
  · rw [if_neg hv] at hok
    have hout := Except.ok.inj hok
    rw [← hout]
    refine ⟨rfl, rfl, ?_, ?_⟩
    · intro s hs hsne
      refine ⟨_, rfl, ?_⟩
      rw [hs]
      simp [pyOr, hsne]
    · intro f hf hcase
      refine ⟨_, rfl, ?_⟩
      rcases hcase with hn | he
      · rw [hn, hf]
        simp [pyOr]
      · rw [he, hf]
        simp [pyOr]

def c6witEnv : AggEnv where
  guessMime := fun _ => none
  fileResolve := fun _ _ => Except.error "no file expected"
  headMime := fun _ => Except.ok none
  urlResolve := fun _ _ _ => Except.error "no url expected"
  query := fun _ => Except.ok (some "answer here")

def c6witReq : ChatReq := ⟨some "hello", none⟩

def c6witOutcome : ChatOutcome := ⟨"answer here", [⟨"hello", "answer here"⟩], 1⟩

theorem c6_witness :
    (chatbot_post c6witEnv c6witReq).map (fun o => o.records.length) = Except.ok 1
    ∧ (chatbot_post c6witEnv c6witReq).map
        (fun o => o.records.map ChatbotInteraction.userInput) = Except.ok ["hello"] := by
  have h := c6_single_record c6witEnv c6witReq c6witOutcome rfl
  constructor
  · rw [show chatbot_post c6witEnv c6witReq = Except.ok c6witOutcome from rfl]
    exact congrArg Except.ok h.1
  · obtain ⟨r, hr, hu⟩ := h.2.2.1 "hello" rfl (by decide)
    rw [show chatbot_post c6witEnv c6witReq = Except.ok c6witOutcome from rfl]
    show Except.ok (c6witOutcome.records.map ChatbotInteraction.userInput) = Except.ok ["hello"]
    rw [hr]
    simp [hu]

end CodeAndClause
